import Mathlib

/-!
Shallow embedding of the Pranayama breath-timer core (src/script.js).

Timestamps are modelled as whole seconds since an epoch, with a uniform
calendar-day length of 86400 seconds (the device-local calendar
abstraction; the spec's design notes leave the timezone choice open).
Each user action or timer tick carries the wall-clock time at which it
fires.  The one-second interval registered by startPhase exists exactly
while the engine is running (startCycle registers it, resetCycle clears
it, and a phase completion clears and immediately re-registers it), so
the tick transition below is a no-op when the running flag is off,
mirroring the absence of a scheduled interval.
-/

/-- Number of seconds in one calendar day of the model. -/
def daySecs : Nat := 86400

/-- Day key of a timestamp, the model of toLocaleDateString(): two
timestamps get the same key exactly when they fall on the same calendar
day. -/
def dateKey (t : Nat) : Nat := t / daySecs

/-- Truncation of a timestamp to the first instant of its calendar day,
the model of new Date(x.toDateString()). -/
def startOfDay (t : Nat) : Nat := t / daySecs * daySecs

/-- ASCII lowering of one character, as in JavaScript toLowerCase on the
phase names used here. -/
def lowerChar (c : Char) : Char :=
  if 65 ≤ c.toNat ∧ c.toNat ≤ 90 then Char.ofNat (c.toNat + 32) else c

/-- Model of String.prototype.toLowerCase for the ASCII phase names. -/
def toLowerCase (s : String) : String :=
  String.mk (s.data.map lowerChar)

/-- One element of the cycle array built by setupCycleFromInputs. -/
structure PhaseSpec where
  phase : String
  duration : Nat
deriving DecidableEq

/-- One record of the history ledger, as pushed by addHistoryPhase. -/
structure HistoryEntry where
  ts : Nat
  phase : String
  duration : Nat
  text : String
deriving DecidableEq

/-- One record of the session summary store, as pushed by
finalizeSessionIfActive. -/
structure SessionSummary where
  startISO : Nat
  endISO : Nat
  cycles : Nat
  durationSec : Int
  inhale : Int
  hold : Int
  exhale : Int
deriving DecidableEq

/-- The mutable module state of script.js: the cycle engine, the session
tracker, the three persisted stores, the three duration input fields
(an input models the outcome of parseInt on its text: none for an empty
or non-numeric field, some n for a numeric one), and the displayed
phase/countdown/button texts. -/
structure State where
  cycle : List PhaseSpec
  cycleIndex : Nat
  timeLeft : Nat
  running : Bool
  paused : Bool
  sessionActive : Bool
  sessionStartTime : Option Nat
  sessionCycles : Nat
  historyData : List HistoryEntry
  sessionSummaries : List SessionSummary
  progressData : Nat → Nat
  inhaleInput : Option Int
  holdInput : Option Int
  exhaleInput : Option Int
  phaseDisplay : String
  timeDisplay : String
  pauseBtnText : String

/-- Model of the JavaScript expression parseInt(x) || d: both NaN and 0
are falsy, so they fall back to the default d. -/
def orDefault (v : Option Int) (d : Int) : Int :=
  match v with
  | none => d
  | some n => if n = 0 then d else n

/-- Model of Math.max(1, parseInt(x) || d), the duration taken from one
input field by setupCycleFromInputs. -/
def inputDuration (v : Option Int) (d : Int) : Nat :=
  (max 1 (orDefault v d)).toNat

/-- Model of String(n).padStart(2, "0") for a natural number. -/
def pad2 (n : Nat) : String :=
  if 2 ≤ (toString n).length then toString n else "0" ++ toString n

/-- History record built by addHistoryPhase. -/
def mkEntry (now : Nat) (phase : String) (duration : Nat) : HistoryEntry :=
  { ts := now, phase := phase, duration := duration
    text := phase ++ " (" ++ toString duration ++ "s)" }

/-- The synchronous part of startPhase: display the current phase and its
duration and load the countdown.  The interval registration it also
performs is modelled by the tick transition being enabled while running. -/
def startPhase (s : State) : State :=
  let current := s.cycle.getD s.cycleIndex ⟨"", 0⟩
  { s with phaseDisplay := current.phase
           timeDisplay := pad2 current.duration
           timeLeft := current.duration }

/-- Model of addHistoryPhase: append one entry to the ledger (the
persist and list-refresh calls have no core state). -/
def addHistoryPhase (now : Nat) (phase : String) (duration : Nat) (s : State) : State :=
  { s with historyData := s.historyData ++ [mkEntry now phase duration] }

/-- Model of addProgressForToday: bump the current day's count in the
progress map, defaulting a missing key to 0. -/
def addProgressForToday (now : Nat) (count : Nat) (s : State) : State :=
  { s with progressData :=
      fun k => if k = dateKey now then s.progressData k + count else s.progressData k }

/-- The body of the interval callback once the countdown reaches zero:
log the completed phase, advance the index modulo the cycle length, on
an Exhale completion count the full cycle and bump today's progress, and
start the next phase. -/
def completePhase (now : Nat) (s : State) : State :=
  let current := s.cycle.getD s.cycleIndex ⟨"", 0⟩
  let s1 := addHistoryPhase now current.phase current.duration s
  let s2 := { s1 with cycleIndex := (s1.cycleIndex + 1) % s1.cycle.length }
  let s3 := if toLowerCase current.phase = "exhale" then
      addProgressForToday now 1 { s2 with sessionCycles := s2.sessionCycles + 1 }
    else s2
  startPhase s3

/-- One firing of the interval callback at wall-clock time now.  No
interval is scheduled while the engine is stopped, hence the running
guard; while paused the callback returns before touching anything. -/
def tick (now : Nat) (s : State) : State :=
  if s.running = false then s
  else if s.paused = true then s
  else
    let t := s.timeLeft - 1
    let s1 := { s with timeLeft := t, timeDisplay := pad2 t }
    if t = 0 then completePhase now s1 else s1

/-- A sequence of interval firings at the given wall-clock times. -/
def ticks (times : List Nat) (s : State) : State :=
  times.foldl (fun s t => tick t s) s

/-- Model of setupCycleFromInputs: rebuild the three-element cycle array
from the input fields with defaults 4/7/8. -/
def setupCycleFromInputs (s : State) : State :=
  { s with cycle :=
      [ ⟨"Inhale", inputDuration s.inhaleInput 4⟩
      , ⟨"Hold", inputDuration s.holdInput 7⟩
      , ⟨"Exhale", inputDuration s.exhaleInput 8⟩ ] }

/-- Model of startCycle: a no-op while running, otherwise rebuild the
cycle, mark the engine running and unpaused, open a session if none is
active, and start phase 0. -/
def startCycle (now : Nat) (s : State) : State :=
  if s.running then s
  else
    let s1 := setupCycleFromInputs s
    let s2 := { s1 with running := true, paused := false, cycleIndex := 0
                        timeLeft := (s1.cycle.getD 0 ⟨"", 0⟩).duration }
    let s3 := if s2.sessionActive then s2
      else { s2 with sessionActive := true
                     sessionStartTime := some now
                     sessionCycles := 0 }
    startPhase s3

/-- Model of pauseOrResume: a no-op while the engine is stopped,
otherwise flip the paused flag and relabel the button. -/
def pauseOrResume (s : State) : State :=
  if s.running then
    let p := !s.paused
    { s with paused := p, pauseBtnText := if p then "Resume" else "Pause" }
  else s

/-- Model of finalizeSessionIfActive: a no-op with no active session;
otherwise close the session and append one summary, snapshotting the
input fields as parsed right now (parseInt(x) || default, with no
minimum clamp). -/
def finalizeSessionIfActive (now : Nat) (s : State) : State :=
  if s.sessionActive then
    let start := s.sessionStartTime.getD now
    { s with sessionActive := false
             sessionSummaries := s.sessionSummaries ++
               [ { startISO := start, endISO := now, cycles := s.sessionCycles
                   durationSec := (now : Int) - (start : Int)
                   inhale := orDefault s.inhaleInput 4
                   hold := orDefault s.holdInput 7
                   exhale := orDefault s.exhaleInput 8 } ] }
  else s

/-- Model of resetCycle: finalize any active session, stop the engine,
and return every transient field to its initial value. -/
def resetCycle (now : Nat) (s : State) : State :=
  let s1 := finalizeSessionIfActive now s
  { s1 with running := false, paused := false, sessionActive := false
            sessionStartTime := none, sessionCycles := 0, cycleIndex := 0
            timeLeft := 0, phaseDisplay := "Press Start", timeDisplay := "00"
            pauseBtnText := "Pause" }

/-- Model of the confirmed branch of clearAllHistory: empty all three
stores. -/
def clearAllHistory (s : State) : State :=
  { s with historyData := [], sessionSummaries := [], progressData := fun _ => 0 }

/-- A report range: the string "all" or the parsed positive day count. -/
inductive Range where
  | all : Range
  | days (n : Nat) : Range

/-- Model of filterHistoryByRange: keep the entries whose timestamp is
at or after the start of the day lying days−1 before now. -/
def filterHistoryByRange (r : Range) (now : Nat) (hist : List HistoryEntry) : List HistoryEntry :=
  match r with
  | Range.all => hist
  | Range.days n =>
      hist.filter (fun h => decide (startOfDay (now - (n - 1) * daySecs) ≤ h.ts))

/-- The module state right after the init() boot from empty storage. -/
def initState : State :=
  { cycle := [], cycleIndex := 0, timeLeft := 0, running := false
    paused := false, sessionActive := false, sessionStartTime := none
    sessionCycles := 0, historyData := [], sessionSummaries := []
    progressData := fun _ => 0, inhaleInput := none, holdInput := none
    exhaleInput := none, phaseDisplay := "Press Start", timeDisplay := "00"
    pauseBtnText := "Pause" }

/-- One externally triggered transition: editing the input fields,
clicking Start, Pause or Reset, a timer tick, or a confirmed clear. -/
inductive Op where
  | setInputs (i h e : Option Int) : Op
  | start (now : Nat) : Op
  | timerTick (now : Nat) : Op
  | pauseToggle : Op
  | reset (now : Nat) : Op
  | clear : Op

/-- The state transformer of one transition. -/
def step (op : Op) (s : State) : State :=
  match op with
  | Op.setInputs i h e => { s with inhaleInput := i, holdInput := h, exhaleInput := e }
  | Op.start now => startCycle now s
  | Op.timerTick now => tick now s
  | Op.pauseToggle => pauseOrResume s
  | Op.reset now => resetCycle now s
  | Op.clear => clearAllHistory s

/-- The state reached from the boot state by a sequence of transitions. -/
def run (ops : List Op) : State :=
  ops.foldl (fun s op => step op s) initState

/-- Number of ledger entries that record an Exhale completion on day d. -/
def countExhaleOn (d : Nat) (hist : List HistoryEntry) : Nat :=
  hist.countP (fun h => h.phase == "Exhale" && dateKey h.ts == d)

/-- Transient display and engine fields restored to their boot values. -/
def transientCleared (s : State) : Prop :=
  s.running = initState.running ∧ s.paused = initState.paused ∧
  s.cycleIndex = initState.cycleIndex ∧ s.timeLeft = initState.timeLeft ∧
  s.phaseDisplay = initState.phaseDisplay ∧ s.timeDisplay = initState.timeDisplay

/-- A sample state whose engine is running. -/
def sampleRunning : State :=
  { initState with running := true, sessionActive := true
                   sessionStartTime := some 0
                   cycle := [⟨"Inhale", 4⟩, ⟨"Hold", 7⟩, ⟨"Exhale", 8⟩]
                   timeLeft := 4, phaseDisplay := "Inhale", timeDisplay := "04" }

/-- A sample running state whose paused flag is set. -/
def samplePaused : State :=
  { sampleRunning with paused := true, pauseBtnText := "Resume" }

/-- The boot state with the 4-7-8 configuration typed into the inputs. -/
def sample478 : State :=
  { initState with inhaleInput := some 4, holdInput := some 7, exhaleInput := some 8 }

/-- The ledger entry of an Exhale completion on day 0 of the model. -/
def eOld : HistoryEntry :=
  { ts := 0, phase := "Exhale", duration := 8, text := "Exhale (8s)" }

/-- A ledger entry on day 7 of the model, exactly 7 calendar days after
eOld. -/
def eToday : HistoryEntry :=
  { ts := 604800, phase := "Inhale", duration := 4, text := "Inhale (4s)" }

/-- Transition sequence in which the inhale input is edited between the
session's start and its finalizing reset. -/
def editMidSession : List Op :=
  [ Op.setInputs (some 4) (some 7) (some 8), Op.start 0
  , Op.setInputs (some 9) (some 7) (some 8), Op.reset 5 ]

/-- Every phase name occurring in a cycle array is one of the three
names installed by setupCycleFromInputs. -/
def NamesOK (l : List PhaseSpec) : Prop :=
  ∀ p ∈ l, p.phase = "Inhale" ∨ p.phase = "Hold" ∨ p.phase = "Exhale"

/-- C7.  startCycle returns as its very first statement while the engine
is running, so it changes nothing at all: not the completed-cycle count,
not the phase index, not the remaining seconds. -/
theorem start_idempotent (now : Nat) (s : State) (h : s.running = true) :
    startCycle now s = s := by
  simp [startCycle, h]

/-- Concrete instance of start_idempotent on a running sample state. -/
theorem start_idempotent_witness : startCycle 3 sampleRunning = sampleRunning :=
  start_idempotent 3 sampleRunning rfl

/-- C10.  pauseOrResume returns as its very first statement while the
engine is stopped, so it leaves every state variable unchanged,
including the paused flag. -/
theorem pause_idle_noop (s : State) (h : s.running = false) :
    pauseOrResume s = s := by
  simp [pauseOrResume, h]

/-- Concrete instance of pause_idle_noop on the boot state. -/
theorem pause_idle_noop_witness : pauseOrResume initState = initState :=
  pause_idle_noop initState rfl

/-- Division distributes over subtracting a multiple of the divisor,
also in the truncated case. -/
lemma sub_mul_div_eq (x b D : Nat) (hD : 0 < D) : (x - b * D) / D = x / D - b := by
  by_cases h : D * b ≤ x
  · rw [mul_comm b D]
    exact Nat.sub_mul_div x D b h
  · push_neg at h
    rw [mul_comm D b] at h
    have h1 : x - b * D = 0 := Nat.sub_eq_zero_of_le h.le
    have h2 : x / D < b := (Nat.div_lt_iff_lt_mul hD).mpr h
    rw [h1, Nat.zero_div, Nat.sub_eq_zero_of_le h2.le]

/-- C1 as stated fails: with now on day 7, eToday timestamped today and
eOld timestamped exactly 7 calendar days before today, the range-7
filter returns only the today entry, not both, because the cutoff is
the start of day now−6. -/
theorem range_seven_boundary_counterexample :
    dateKey eToday.ts = dateKey 604800 ∧
    dateKey eOld.ts + 7 = dateKey 604800 ∧
    filterHistoryByRange (Range.days 7) 604800 [eOld, eToday] = [eToday] ∧
    ¬ eOld ∈ filterHistoryByRange (Range.days 7) 604800 [eOld, eToday] := by
  refine ⟨rfl, by decide, by decide, by decide⟩

/-- C1 amended.  A range of N days keeps exactly the entries whose
timestamp is on or after the start of the day N−1 days before now,
i.e. whose day is among the last N days inclusive of today; hence the
entry dated exactly 7 days ago is excluded by range "7" (and by "6"),
and range "8" is the smallest range that includes it. -/
theorem range_filter_mem (n now : Nat) (hist : List HistoryEntry)
    (e : HistoryEntry) (hn : 1 ≤ n) :
    e ∈ filterHistoryByRange (Range.days n) now hist ↔
      e ∈ hist ∧ dateKey now < dateKey e.ts + n := by
  simp only [filterHistoryByRange, List.mem_filter, decide_eq_true_eq]
  refine and_congr_right fun _ => ?_
  unfold startOfDay dateKey
  rw [sub_mul_div_eq now (n - 1) daySecs (by decide)]
  rw [show (now / daySecs - (n - 1)) * daySecs ≤ e.ts ↔
        now / daySecs - (n - 1) ≤ e.ts / daySecs from
      ((Nat.le_div_iff_mul_le (by decide)).symm)]
  generalize now / daySecs = p
  generalize e.ts / daySecs = q
  omega

/-- Concrete instance of range_filter_mem: the today entry is kept by
range "7" on day 7. -/
theorem range_filter_mem_witness :
    eToday ∈ filterHistoryByRange (Range.days 7) 604800 [eOld, eToday] ↔
      eToday ∈ [eOld, eToday] ∧ dateKey 604800 < dateKey eToday.ts + 7 :=
  range_filter_mem 7 604800 [eOld, eToday] eToday (by decide)

/-- A tick fired with the engine stopped or the paused flag set changes
nothing. -/
lemma tick_frozen (now : Nat) (s : State)
    (h : s.running = false ∨ s.paused = true) : tick now s = s := by
  rcases h with h | h <;> simp [tick, h]

/-- Any sequence of ticks fired with the engine stopped or the paused
flag set changes nothing. -/
lemma ticks_frozen (times : List Nat) (s : State)
    (h : s.running = false ∨ s.paused = true) : ticks times s = s := by
  induction times with
  | nil => rfl
  | cons t rest ih =>
      show ticks rest (tick t s) = s
      rw [tick_frozen t s h, ih]

/-- C8.  While the paused flag is set every tick is a complete no-op,
and pausing from an unpaused state, absorbing any sequence of ticks, and
resuming leaves the state (in particular secondsRemaining) exactly as
pausing and immediately resuming would. -/
theorem paused_frame (s : State) (now : Nat) (times : List Nat) :
    (s.paused = true → tick now s = s) ∧
    (s.paused = false →
      pauseOrResume (ticks times (pauseOrResume s)) = pauseOrResume (pauseOrResume s)) := by
  constructor
  · intro h
    exact tick_frozen now s (Or.inr h)
  · intro h
    have hfr : ticks times (pauseOrResume s) = pauseOrResume s := by
      apply ticks_frozen
      by_cases hr : s.running = true
      · right
        simp [pauseOrResume, hr, h]
      · left
        simp only [Bool.not_eq_true] at hr
        simp [pauseOrResume, hr]
    rw [hfr]

/-- Concrete instance of paused_frame: a paused tick is a no-op and a
pause-ticks-resume round trip matches pause-resume on the boot state. -/
theorem paused_frame_witness :
    (tick 0 samplePaused = samplePaused) ∧
    (pauseOrResume (ticks [1, 2, 3] (pauseOrResume initState)) =
      pauseOrResume (pauseOrResume initState)) :=
  ⟨(paused_frame samplePaused 0 []).1 rfl,
   (paused_frame initState 0 [1, 2, 3]).2 rfl⟩

/-- C6.  resetCycle during an active session appends exactly one summary
carrying the completed-cycle count accumulated so far and restores every
transient field to its boot value; with no active session it appends
nothing and still restores the transient fields. -/
theorem reset_finalizes (now : Nat) (s : State) :
    (s.sessionActive = true →
      (∃ sum : SessionSummary,
        (resetCycle now s).sessionSummaries = s.sessionSummaries ++ [sum] ∧
        sum.cycles = s.sessionCycles) ∧
      transientCleared (resetCycle now s)) ∧
    (s.sessionActive = false →
      (resetCycle now s).sessionSummaries = s.sessionSummaries ∧
      transientCleared (resetCycle now s)) := by
  constructor
  · intro h
    refine ⟨⟨{ startISO := s.sessionStartTime.getD now, endISO := now
               cycles := s.sessionCycles
               durationSec := (now : Int) - ((s.sessionStartTime.getD now : Nat) : Int)
               inhale := orDefault s.inhaleInput 4
               hold := orDefault s.holdInput 7
               exhale := orDefault s.exhaleInput 8 }, ?_, rfl⟩, ?_⟩
    · simp [resetCycle, finalizeSessionIfActive, h]
    · simp [transientCleared, resetCycle, initState]
  · intro h
    refine ⟨?_, ?_⟩
    · simp [resetCycle, finalizeSessionIfActive, h]
    · simp [transientCleared, resetCycle, initState]

/-- Concrete instance of reset_finalizes on an active sample state and
on the inactive boot state. -/
theorem reset_finalizes_witness :
    ((∃ sum : SessionSummary,
        (resetCycle 10 sampleRunning).sessionSummaries =
          sampleRunning.sessionSummaries ++ [sum] ∧
        sum.cycles = sampleRunning.sessionCycles) ∧
      transientCleared (resetCycle 10 sampleRunning)) ∧
    ((resetCycle 10 initState).sessionSummaries = initState.sessionSummaries ∧
      transientCleared (resetCycle 10 initState)) :=
  ⟨(reset_finalizes 10 sampleRunning).1 rfl, (reset_finalizes 10 initState).2 rfl⟩

/-- C5 amended.  Finalizing an active session appends one summary whose
inhale/hold/exhale fields are the input fields as parsed at finalization
time (parseInt || default, with no minimum clamp), not a snapshot of the
durations the cycle engine was configured with at session start; the two
agree only when the inputs are unchanged and parse to positive values. -/
theorem finalize_summary_fields (now : Nat) (s : State) (h : s.sessionActive = true) :
    (finalizeSessionIfActive now s).sessionSummaries = s.sessionSummaries ++
      [ { startISO := s.sessionStartTime.getD now, endISO := now
          cycles := s.sessionCycles
          durationSec := (now : Int) - ((s.sessionStartTime.getD now : Nat) : Int)
          inhale := orDefault s.inhaleInput 4
          hold := orDefault s.holdInput 7
          exhale := orDefault s.exhaleInput 8 } ] := by
  simp [finalizeSessionIfActive, h]

/-- Concrete instance of finalize_summary_fields on an active sample
state. -/
theorem finalize_summary_fields_witness :
    (finalizeSessionIfActive 10 sampleRunning).sessionSummaries =
      sampleRunning.sessionSummaries ++
      [ { startISO := sampleRunning.sessionStartTime.getD 10, endISO := 10
          cycles := sampleRunning.sessionCycles
          durationSec := (10 : Int) - ((sampleRunning.sessionStartTime.getD 10 : Nat) : Int)
          inhale := orDefault sampleRunning.inhaleInput 4
          hold := orDefault sampleRunning.holdInput 7
          exhale := orDefault sampleRunning.exhaleInput 8 } ] :=
  finalize_summary_fields 10 sampleRunning rfl

/-- C5 as stated fails: start a session with inhale input 4 (so the
engine is configured with inhale duration 4, still recorded in the cycle
array), edit the inhale input to 9, then reset; the appended summary
records inhale 9, not the duration 4 the session's cycle was configured
with. -/
theorem summary_snapshot_counterexample :
    (run editMidSession).sessionSummaries.map (fun x => x.inhale) = [9] ∧
    ((run editMidSession).cycle.getD 0 ⟨"", 0⟩).duration = 4 ∧
    ¬ ((9 : Int) = 4) := by
  refine ⟨by decide, by decide, by decide⟩

/-- Any parsed input yields a duration of at least one second. -/
lemma one_le_inputDuration (v : Option Int) (d : Int) : 1 ≤ inputDuration v d := by
  unfold inputDuration
  have h := le_max_left 1 (orDefault v d)
  omega

/-- C4 as stated fails: an input of 0 (non-positive) and a non-numeric
input both fall back to the phase default 4, not to the claimed minimum
clamp of 1, because parseInt(x) || 4 treats 0 and NaN as falsy. -/
theorem input_clamp_counterexample :
    inputDuration (some 0) 4 = 4 ∧ inputDuration none 4 = 4 ∧
    ¬ inputDuration (some 0) 4 = 1 ∧ ¬ inputDuration none 4 = 1 ∧
    ((setupCycleFromInputs { initState with inhaleInput := some 0 }).cycle.getD 0
        ⟨"", 0⟩).duration = 4 := by
  refine ⟨by decide, by decide, by decide, by decide, by decide⟩

/-- C4 amended.  Building the phase cycle always yields a positive
duration for each phase and never fails: a missing or non-numeric input
and an input of exactly 0 yield the phase default (4/7/8), a negative
input is clamped to the minimum of 1, and a positive input is used as
given. -/
theorem input_clamp_amended (v : Option Int) (d : Int) (hd : 1 ≤ d) :
    1 ≤ inputDuration v d ∧
    (v = none → inputDuration v d = d.toNat) ∧
    (v = some 0 → inputDuration v d = d.toNat) ∧
    (∀ n : Int, v = some n → n < 0 → inputDuration v d = 1) ∧
    (∀ n : Int, v = some n → 0 < n → inputDuration v d = n.toNat) ∧
    (∀ s : State, ∀ p ∈ (setupCycleFromInputs s).cycle, 1 ≤ p.duration) := by
  have hsome : ∀ (n d : Int), n ≠ 0 → orDefault (some n) d = n := by
    intro n d h
    simp [orDefault, h]
  refine ⟨one_le_inputDuration v d, ?_, ?_, ?_, ?_, ?_⟩
  · rintro rfl
    show (max 1 d).toNat = d.toNat
    rw [max_eq_right hd]
  · rintro rfl
    show (max 1 (orDefault (some 0) d)).toNat = d.toNat
    rw [show orDefault (some 0) d = d from by simp [orDefault], max_eq_right hd]
  · rintro n rfl hn
    show (max 1 (orDefault (some n) d)).toNat = 1
    rw [hsome n d (by omega), max_eq_left (by omega : n ≤ (1 : Int))]
    rfl
  · rintro n rfl hn
    show (max 1 (orDefault (some n) d)).toNat = n.toNat
    rw [hsome n d (by omega), max_eq_right (by omega : (1 : Int) ≤ n)]
  · intro s p hp
    simp only [setupCycleFromInputs, List.mem_cons, List.not_mem_nil, or_false] at hp
    rcases hp with rfl | rfl | rfl <;> exact one_le_inputDuration _ _

/-- Concrete instance of input_clamp_amended: a 0 input falls to the
default, a negative input clamps to 1, a positive input is kept. -/
theorem input_clamp_amended_witness :
    inputDuration (some 0) 4 = (4 : Int).toNat ∧
    inputDuration (some (-5)) 7 = 1 ∧
    inputDuration (some 9) 8 = (9 : Int).toNat :=
  ⟨(input_clamp_amended (some 0) 4 (by decide)).2.2.1 rfl,
   (input_clamp_amended (some (-5)) 7 (by decide)).2.2.2.1 (-5) rfl (by decide),
   (input_clamp_amended (some 9) 8 (by decide)).2.2.2.2.1 9 rfl (by decide)⟩

/-- Completing a phase never touches the engine-running or
session-active flags. -/
lemma completePhase_flags (now : Nat) (s : State) :
    (completePhase now s).running = s.running ∧
    (completePhase now s).sessionActive = s.sessionActive := by
  simp only [completePhase, addHistoryPhase, addProgressForToday, startPhase]
  split <;> exact ⟨rfl, rfl⟩

/-- A tick never touches the engine-running or session-active flags. -/
lemma tick_flags (now : Nat) (s : State) :
    (tick now s).running = s.running ∧
    (tick now s).sessionActive = s.sessionActive := by
  simp only [tick]
  split
  · exact ⟨rfl, rfl⟩
  split
  · exact ⟨rfl, rfl⟩
  split
  · exact ⟨(completePhase_flags now _).1, (completePhase_flags now _).2⟩
  · exact ⟨rfl, rfl⟩

/-- Every transition keeps the engine-running flag equal to the
session-active flag. -/
lemma step_flags (op : Op) (s : State) (h : s.running = s.sessionActive) :
    (step op s).running = (step op s).sessionActive := by
  cases op with
  | setInputs i hh e => exact h
  | start now =>
      show (startCycle now s).running = (startCycle now s).sessionActive
      simp only [startCycle, setupCycleFromInputs, startPhase]
      split
      · exact h
      split
      · next h2 => exact h2.symm
      · rfl
  | timerTick now =>
      show (tick now s).running = (tick now s).sessionActive
      rw [(tick_flags now s).1, (tick_flags now s).2]
      exact h
  | pauseToggle =>
      show (pauseOrResume s).running = (pauseOrResume s).sessionActive
      simp only [pauseOrResume]
      split <;> exact h
  | reset now => rfl
  | clear => exact h

/-- C9.  In every state reachable from the boot state the engine-running
flag equals the session-active flag: the engine never runs without an
active session and no session stays active with the engine stopped. -/
theorem running_iff_sessionActive (ops : List Op) :
    (run ops).running = (run ops).sessionActive := by
  have key : ∀ (l : List Op) (s : State), s.running = s.sessionActive →
      (l.foldl (fun s op => step op s) s).running =
        (l.foldl (fun s op => step op s) s).sessionActive := by
    intro l
    induction l with
    | nil => intro s hs; exact hs
    | cons op rest ih =>
        intro s hs
        exact ih (step op s) (step_flags op s hs)
  exact key ops initState rfl

/-- The three-phase array built from any inputs has well-formed names. -/
lemma namesOK_setup (a b c : Nat) :
    NamesOK [⟨"Inhale", a⟩, ⟨"Hold", b⟩, ⟨"Exhale", c⟩] := by
  intro p hp
  simp only [List.mem_cons, List.not_mem_nil, or_false] at hp
  rcases hp with rfl | rfl | rfl
  · left; rfl
  · right; left; rfl
  · right; right; rfl

/-- A defaulted list lookup returns a member or the fallback. -/
lemma getD_mem_or_eq (l : List PhaseSpec) (i : Nat) (d : PhaseSpec) :
    l.getD i d ∈ l ∨ l.getD i d = d := by
  induction l generalizing i with
  | nil => right; exact List.getD_nil
  | cons a t ih =>
      cases i with
      | zero =>
          left
          rw [List.getD_cons_zero]
          exact List.mem_cons_self a t
      | succ j =>
          rw [List.getD_cons_succ]
          rcases ih j with h | h
          · left; exact List.mem_cons_of_mem a h
          · right; exact h

/-- On a cycle with well-formed names the lowercase test used by the
source coincides with equality to the name Exhale. -/
lemma exhale_name_iff (s : State) (hn : NamesOK s.cycle) :
    toLowerCase (s.cycle.getD s.cycleIndex ⟨"", 0⟩).phase = "exhale" ↔
      (s.cycle.getD s.cycleIndex ⟨"", 0⟩).phase = "Exhale" := by
  rcases getD_mem_or_eq s.cycle s.cycleIndex ⟨"", 0⟩ with h | h
  · rcases hn _ h with h1 | h1 | h1 <;> rw [h1] <;> decide
  · rw [h]; decide

/-- Appending one entry adds one to the per-day Exhale count exactly
when the entry records an Exhale on that day. -/
lemma countExhaleOn_append (d : Nat) (l : List HistoryEntry) (e : HistoryEntry) :
    countExhaleOn d (l ++ [e]) =
      countExhaleOn d l + (if e.phase = "Exhale" ∧ dateKey e.ts = d then 1 else 0) := by
  simp only [countExhaleOn, List.countP_append, List.countP_cons, List.countP_nil,
    Nat.zero_add]
  congr 1
  simp [Bool.and_eq_true, beq_iff_eq]

/-- Completing a phase keeps the aggregator invariant: it appends the
ledger entry and bumps today's progress exactly on an Exhale. -/
lemma inv_completePhase (now : Nat) (s : State) (hn : NamesOK s.cycle)
    (hp : ∀ d, s.progressData d = countExhaleOn d s.historyData) :
    NamesOK (completePhase now s).cycle ∧
    ∀ d, (completePhase now s).progressData d =
      countExhaleOn d (completePhase now s).historyData := by
  have hiff := exhale_name_iff s hn
  by_cases hx : toLowerCase (s.cycle.getD s.cycleIndex ⟨"", 0⟩).phase = "exhale"
  · have hph := hiff.mp hx
    refine ⟨?_, fun d => ?_⟩
    · simp only [completePhase, addHistoryPhase, addProgressForToday, startPhase,
        if_pos hx]
      exact hn
    · simp only [completePhase, addHistoryPhase, addProgressForToday, startPhase,
        if_pos hx]
      rw [countExhaleOn_append]
      simp only [mkEntry]
      by_cases hd : d = dateKey now
      · rw [if_pos hd, if_pos (And.intro hph hd.symm), hp d]
      · rw [if_neg hd, if_neg (fun hcon => hd hcon.2.symm), hp d, Nat.add_zero]
  · have hph : ¬ (s.cycle.getD s.cycleIndex ⟨"", 0⟩).phase = "Exhale" :=
      fun hcon => hx (hiff.mpr hcon)
    refine ⟨?_, fun d => ?_⟩
    · simp only [completePhase, addHistoryPhase, addProgressForToday, startPhase,
        if_neg hx]
      exact hn
    · simp only [completePhase, addHistoryPhase, addProgressForToday, startPhase,
        if_neg hx]
      rw [countExhaleOn_append]
      simp only [mkEntry]
      rw [if_neg (fun hcon => hph hcon.1), hp d, Nat.add_zero]

/-- Every transition keeps the aggregator invariant. -/
lemma inv_step (op : Op) (s : State) (hn : NamesOK s.cycle)
    (hp : ∀ d, s.progressData d = countExhaleOn d s.historyData) :
    NamesOK (step op s).cycle ∧
    ∀ d, (step op s).progressData d = countExhaleOn d (step op s).historyData := by
  cases op with
  | setInputs i hh e => exact ⟨hn, hp⟩
  | start now =>
      simp only [step, startCycle, setupCycleFromInputs, startPhase]
      split
      · exact ⟨hn, hp⟩
      split
      · exact ⟨namesOK_setup _ _ _, hp⟩
      · exact ⟨namesOK_setup _ _ _, hp⟩
  | timerTick now =>
      simp only [step, tick]
      split
      · exact ⟨hn, hp⟩
      split
      · exact ⟨hn, hp⟩
      split
      · exact inv_completePhase now _ hn hp
      · exact ⟨hn, hp⟩
  | pauseToggle =>
      simp only [step, pauseOrResume]
      split
      · exact ⟨hn, hp⟩
      · exact ⟨hn, hp⟩
  | reset now =>
      simp only [step, resetCycle, finalizeSessionIfActive]
      split
      · exact ⟨hn, hp⟩
      · exact ⟨hn, hp⟩
  | clear => exact ⟨hn, fun d => rfl⟩

/-- C2.  After any transition sequence from the boot state, for every
day key the progress map's count equals the number of ledger entries
recording an Exhale completion on that day: the aggregator stays
consistent with the ledger, both being written in the same
Exhale-completion tick. -/
theorem progress_matches_ledger (ops : List Op) (d : Nat) :
    (run ops).progressData d = countExhaleOn d (run ops).historyData := by
  have key : ∀ (l : List Op) (s : State), NamesOK s.cycle →
      (∀ x, s.progressData x = countExhaleOn x s.historyData) →
      ∀ x, (l.foldl (fun s op => step op s) s).progressData x =
        countExhaleOn x (l.foldl (fun s op => step op s) s).historyData := by
    intro l
    induction l with
    | nil => intro s h1 h2 x; exact h2 x
    | cons op rest ih =>
        intro s h1 h2 x
        exact ih (step op s) (inv_step op s h1 h2).1 (inv_step op s h1 h2).2 x
  exact key ops initState (fun p hp => absurd hp (List.not_mem_nil p)) (fun x => rfl) d

/-- Ticks over a concatenation of firing times compose. -/
lemma ticks_append (l1 l2 : List Nat) (s : State) :
    ticks (l1 ++ l2) s = ticks l2 (ticks l1 s) :=
  List.foldl_append _ _ l1 l2

/-- A running, unpaused tick with more than one second left just
decrements the countdown. -/
lemma tick_decrement (now : Nat) (s : State) (hr : s.running = true)
    (hp : s.paused = false) (k : Nat) (ht : s.timeLeft = k + 2) :
    tick now s = { s with timeLeft := k + 1, timeDisplay := pad2 (k + 1) } := by
  simp [tick, hr, hp, ht]

/-- A running, unpaused tick with one second left completes the phase. -/
lemma tick_completes (now : Nat) (s : State) (hr : s.running = true)
    (hp : s.paused = false) (ht : s.timeLeft = 1) :
    tick now s = completePhase now { s with timeLeft := 0, timeDisplay := pad2 0 } := by
  simp [tick, hr, hp, ht]

/-- Running an unpaused phase for exactly its remaining seconds performs
the countdown and then the phase completion. -/
lemma ticks_countdown (now : Nat) (k : Nat) :
    ∀ (s : State), s.running = true → s.paused = false → s.timeLeft = k + 1 →
      ticks (List.replicate (k + 1) now) s =
        completePhase now { s with timeLeft := 0, timeDisplay := pad2 0 } := by
  induction k with
  | zero =>
      intro s hr hp ht
      exact tick_completes now s hr hp ht
  | succ k ih =>
      intro s hr hp ht
      have h2 : ticks (List.replicate (k + 1 + 1) now) s =
          ticks (List.replicate (k + 1) now) (tick now s) := by
        rw [List.replicate_succ]
        rfl
      rw [h2, tick_decrement now s hr hp k ht]
      exact ih { s with timeLeft := k + 1, timeDisplay := pad2 (k + 1) } hr hp rfl

/-- A positive numeric input is used as the phase duration unchanged. -/
lemma dur_of_pos (n : Nat) (d : Int) (hn : 1 ≤ n) :
    inputDuration (some (n : Int)) d = n := by
  have h0 : ¬ ((n : Int) = 0) := by exact_mod_cast Nat.one_le_iff_ne_zero.mp hn
  show (max 1 (if (n : Int) = 0 then d else (n : Int))).toNat = n
  rw [if_neg h0, max_eq_right (by exact_mod_cast hn : (1 : Int) ≤ (n : Int))]
  omega

/-- Starting from an idle state with positive numeric inputs a, b, c
yields the explicit running phase-0 state. -/
lemma startCycle_explicit (now : Nat) (s : State) (a b c : Nat)
    (hr : s.running = false) (hact : s.sessionActive = false)
    (ha : 1 ≤ a) (hb : 1 ≤ b) (hc : 1 ≤ c)
    (hi : s.inhaleInput = some (a : Int)) (hh : s.holdInput = some (b : Int))
    (he : s.exhaleInput = some (c : Int)) :
    startCycle now s =
      { s with cycle := [⟨"Inhale", a⟩, ⟨"Hold", b⟩, ⟨"Exhale", c⟩]
               cycleIndex := 0, timeLeft := a, running := true, paused := false
               sessionActive := true, sessionStartTime := some now
               sessionCycles := 0, phaseDisplay := "Inhale"
               timeDisplay := pad2 a } := by
  simp [startCycle, setupCycleFromInputs, startPhase, hr, hact, hi, hh, he,
    dur_of_pos a 4 ha, dur_of_pos b 7 hb, dur_of_pos c 8 hc]

/-- C3.  From an idle state configured with positive durations a, b, c,
starting a session and processing exactly a+b+c unpaused ticks completes
one full cycle: completedCycles is 1, today's progress count grows by 1,
and exactly three ledger entries are appended, in the order Inhale,
Hold, Exhale with durations a, b, c. -/
theorem full_cycle_ticks (a b c now : Nat) (s : State)
    (ha : 1 ≤ a) (hb : 1 ≤ b) (hc : 1 ≤ c)
    (hr : s.running = false) (hact : s.sessionActive = false)
    (hi : s.inhaleInput = some (a : Int)) (hh : s.holdInput = some (b : Int))
    (he : s.exhaleInput = some (c : Int)) :
    (ticks (List.replicate (a + b + c) now) (startCycle now s)).sessionCycles = 1 ∧
    (ticks (List.replicate (a + b + c) now) (startCycle now s)).progressData (dateKey now) =
      s.progressData (dateKey now) + 1 ∧
    (ticks (List.replicate (a + b + c) now) (startCycle now s)).historyData =
      s.historyData ++
        [mkEntry now "Inhale" a, mkEntry now "Hold" b, mkEntry now "Exhale" c] := by
  obtain ⟨a1, rfl⟩ : ∃ t, a = t + 1 := ⟨a - 1, by omega⟩
  obtain ⟨b1, rfl⟩ : ∃ t, b = t + 1 := ⟨b - 1, by omega⟩
  obtain ⟨c1, rfl⟩ : ∃ t, c = t + 1 := ⟨c - 1, by omega⟩
  have h1 := startCycle_explicit now s (a1 + 1) (b1 + 1) (c1 + 1) hr hact ha hb hc hi hh he
  have h2 : ticks (List.replicate (a1 + 1) now)
      { s with cycle := [⟨"Inhale", a1 + 1⟩, ⟨"Hold", b1 + 1⟩, ⟨"Exhale", c1 + 1⟩]
               cycleIndex := 0, timeLeft := a1 + 1, running := true, paused := false
               sessionActive := true, sessionStartTime := some now
               sessionCycles := 0, phaseDisplay := "Inhale"
               timeDisplay := pad2 (a1 + 1) } =
      { s with cycle := [⟨"Inhale", a1 + 1⟩, ⟨"Hold", b1 + 1⟩, ⟨"Exhale", c1 + 1⟩]
               cycleIndex := 1, timeLeft := b1 + 1, running := true, paused := false
               sessionActive := true, sessionStartTime := some now
               sessionCycles := 0
               historyData := s.historyData ++ [mkEntry now "Inhale" (a1 + 1)]
               phaseDisplay := "Hold", timeDisplay := pad2 (b1 + 1) } :=
    (ticks_countdown now a1 _ rfl rfl rfl).trans rfl
  have h3 : ticks (List.replicate (b1 + 1) now)
      { s with cycle := [⟨"Inhale", a1 + 1⟩, ⟨"Hold", b1 + 1⟩, ⟨"Exhale", c1 + 1⟩]
               cycleIndex := 1, timeLeft := b1 + 1, running := true, paused := false
               sessionActive := true, sessionStartTime := some now
               sessionCycles := 0
               historyData := s.historyData ++ [mkEntry now "Inhale" (a1 + 1)]
               phaseDisplay := "Hold", timeDisplay := pad2 (b1 + 1) } =
      { s with cycle := [⟨"Inhale", a1 + 1⟩, ⟨"Hold", b1 + 1⟩, ⟨"Exhale", c1 + 1⟩]
               cycleIndex := 2, timeLeft := c1 + 1, running := true, paused := false
               sessionActive := true, sessionStartTime := some now
               sessionCycles := 0
               historyData := s.historyData ++ [mkEntry now "Inhale" (a1 + 1)] ++
                 [mkEntry now "Hold" (b1 + 1)]
               phaseDisplay := "Exhale", timeDisplay := pad2 (c1 + 1) } :=
    (ticks_countdown now b1 _ rfl rfl rfl).trans rfl
  have h4 : ticks (List.replicate (c1 + 1) now)
      { s with cycle := [⟨"Inhale", a1 + 1⟩, ⟨"Hold", b1 + 1⟩, ⟨"Exhale", c1 + 1⟩]
               cycleIndex := 2, timeLeft := c1 + 1, running := true, paused := false
               sessionActive := true, sessionStartTime := some now
               sessionCycles := 0
               historyData := s.historyData ++ [mkEntry now "Inhale" (a1 + 1)] ++
                 [mkEntry now "Hold" (b1 + 1)]
               phaseDisplay := "Exhale", timeDisplay := pad2 (c1 + 1) } =
      { s with cycle := [⟨"Inhale", a1 + 1⟩, ⟨"Hold", b1 + 1⟩, ⟨"Exhale", c1 + 1⟩]
               cycleIndex := 0, timeLeft := a1 + 1, running := true, paused := false
               sessionActive := true, sessionStartTime := some now
               sessionCycles := 1
               historyData := s.historyData ++ [mkEntry now "Inhale" (a1 + 1)] ++
                 [mkEntry now "Hold" (b1 + 1)] ++ [mkEntry now "Exhale" (c1 + 1)]
               progressData := fun k =>
                 if k = dateKey now then s.progressData k + 1 else s.progressData k
               phaseDisplay := "Inhale", timeDisplay := pad2 (a1 + 1) } := by
    rw [ticks_countdown now c1 _ rfl rfl rfl]
    have hlow : toLowerCase "Exhale" = "exhale" := by decide
    simp [completePhase, addHistoryPhase, addProgressForToday, startPhase, hlow, mkEntry]
  have hsplit : List.replicate (a1 + 1 + (b1 + 1) + (c1 + 1)) now =
      List.replicate (a1 + 1) now ++
        (List.replicate (b1 + 1) now ++ List.replicate (c1 + 1) now) := by
    rw [← List.replicate_add, ← List.replicate_add, Nat.add_assoc]
  have hall : ticks (List.replicate (a1 + 1 + (b1 + 1) + (c1 + 1)) now)
      (startCycle now s) =
      { s with cycle := [⟨"Inhale", a1 + 1⟩, ⟨"Hold", b1 + 1⟩, ⟨"Exhale", c1 + 1⟩]
               cycleIndex := 0, timeLeft := a1 + 1, running := true, paused := false
               sessionActive := true, sessionStartTime := some now
               sessionCycles := 1
               historyData := s.historyData ++ [mkEntry now "Inhale" (a1 + 1)] ++
                 [mkEntry now "Hold" (b1 + 1)] ++ [mkEntry now "Exhale" (c1 + 1)]
               progressData := fun k =>
                 if k = dateKey now then s.progressData k + 1 else s.progressData k
               phaseDisplay := "Inhale", timeDisplay := pad2 (a1 + 1) } := by
    rw [hsplit, ticks_append, ticks_append, h1, h2, h3, h4]
  refine ⟨?_, ?_, ?_⟩
  · rw [hall]
  · rw [hall]
    simp
  · rw [hall]
    simp [List.append_assoc]

/-- Concrete instance of full_cycle_ticks: the 4-7-8 configuration run
for 19 ticks from the boot state. -/
theorem full_cycle_ticks_witness :
    (ticks (List.replicate (4 + 7 + 8) 0) (startCycle 0 sample478)).sessionCycles = 1 ∧
    (ticks (List.replicate (4 + 7 + 8) 0) (startCycle 0 sample478)).progressData (dateKey 0) =
      sample478.progressData (dateKey 0) + 1 ∧
    (ticks (List.replicate (4 + 7 + 8) 0) (startCycle 0 sample478)).historyData =
      sample478.historyData ++
        [mkEntry 0 "Inhale" 4, mkEntry 0 "Hold" 7, mkEntry 0 "Exhale" 8] :=
  full_cycle_ticks 4 7 8 0 sample478 (by decide) (by decide) (by decide)
    rfl rfl rfl rfl rfl
